import Mathlib

/-!
Verification development for two cores of the excerpted repository:
Core A, the vectorized hash-join operator (pkg/sql/colexec/hashjoiner.go),
and Core B, the span-latch manager (storage/spanlatch).  Go code is embedded
shallowly: machine integers become Nat, btrees become lists viewed as
multisets, pointer-linked read sets become lists, and signals become
identifiers paired with a fired set.
-/

/-! ## Core B: span-latch manager, data model -/

/-- hlc.Timestamp: a hybrid-logical clock value (wall time, logical). -/
structure Timestamp where
  wallTime : Nat
  logical : Nat
deriving DecidableEq, Repr, Inhabited

/-- The zero timestamp, hlc.Timestamp{}. -/
def Timestamp.empty : Timestamp := ⟨0, 0⟩

/-- hlc.Timestamp.IsEmpty: equality with the zero value. -/
def Timestamp.IsEmpty (t : Timestamp) : Bool :=
  t.wallTime == 0 && t.logical == 0

/-- hlc.Timestamp.Less: lexicographic order on (wallTime, logical). -/
def Timestamp.Less (t s : Timestamp) : Bool :=
  t.wallTime < s.wallTime || (t.wallTime == s.wallTime && t.logical < s.logical)

/-- spanset.SpanScope: Global and Local key namespaces. -/
inductive SpanScope
  | SpanGlobal
  | SpanLocal
deriving DecidableEq, Repr, Inhabited

/-- spanset.SpanAccess: read-only or read-write access. -/
inductive SpanAccess
  | SpanReadOnly
  | SpanReadWrite
deriving DecidableEq, Repr, Inhabited

/-- roachpb.Span: a key interval [key, endKey). -/
structure Span where
  key : Nat
  endKey : Nat
deriving DecidableEq, Repr, Inhabited

/-- Interval overlap between two spans, used by the overlap iterator of the
btree (FirstOverlap/NextOverlap enumerate exactly the overlapping entries). -/
def Span.overlaps (a b : Span) : Bool :=
  a.key < b.endKey && b.key < a.endKey

/-- Embedding of the latch struct.  The done field of the Go code is a pointer
to the signal of the owning Guard; it is embedded as the numeric identity of
that signal, and the fired state of signals is carried separately as the set
of fired signal identities.  The next/prev readSet links are replaced by list
membership in the readSet list of the scoped manager. -/
structure Latch where
  id : Nat
  span : Span
  ts : Timestamp
  done : Nat
deriving DecidableEq, Repr, Inhabited

/-- ignoreLater from the source: a reader at ts skips writers at strictly
later timestamps. -/
def ignoreLater (ts other : Timestamp) : Bool :=
  !ts.IsEmpty && ts.Less other

/-- ignoreEarlier from the source: a writer at ts skips readers at strictly
earlier timestamps. -/
def ignoreEarlier (ts other : Timestamp) : Bool :=
  !other.IsEmpty && other.Less ts

/-- ignoreNothing from the source: no timestamp-based skipping. -/
def ignoreNothing (_ts _other : Timestamp) : Bool :=
  false

/-- ifGlobal from the source: latches in the Global scope keep the caller
timestamp, latches in the Local scope get the empty timestamp. -/
def ifGlobal (ts : Timestamp) (s : SpanScope) : Timestamp :=
  match s with
  | .SpanGlobal => ts
  | .SpanLocal => Timestamp.empty

/-- The list of latches a call to iterAndWait selects on (blocks for): the
overlap iterator enumerates tree entries overlapping the search latch; an
entry whose done signal is already fired is skipped without selecting on its
channel, an entry accepted by the ignore function is skipped, and the waiter
selects on the channel of every remaining entry.  The fired argument is the
set of signal identities already fired when the iteration runs. -/
def iterAndWaitBlocks (tree : List Latch) (search : Latch) (ts : Timestamp)
    (ignore : Timestamp → Timestamp → Bool) (fired : List Nat) : List Latch :=
  tree.filter fun la =>
    la.span.overlaps search.span && !(fired.contains la.done) && !(ignore ts la.ts)

/-- One latch of the wait loop of Manager.wait: a read latch iterates the
read-write tree with ignoreLater; a write latch iterates the read-write tree
with ignoreNothing and then the read-only tree with ignoreEarlier. -/
def waitBlocksFor (treeRW treeRO : List Latch) (a : SpanAccess) (search : Latch)
    (ts : Timestamp) (fired : List Nat) : List Latch :=
  match a with
  | .SpanReadOnly => iterAndWaitBlocks treeRW search ts ignoreLater fired
  | .SpanReadWrite =>
      iterAndWaitBlocks treeRW search ts ignoreNothing fired ++
        iterAndWaitBlocks treeRO search ts ignoreEarlier fired

/-! ## Core B: SpanSet, Guard and newGuard -/

/-- spanset.SpanSet: the spans declared by one acquisition, keyed by scope and
access (GetSpans).  The four fields are the four (scope, access) slots. -/
structure SpanSet where
  globalRO : List Span
  globalRW : List Span
  localRO : List Span
  localRW : List Span
deriving DecidableEq, Repr, Inhabited

/-- spanset.SpanSet.GetSpans. -/
def SpanSet.GetSpans (ss : SpanSet) (a : SpanAccess) (s : SpanScope) : List Span :=
  match s, a with
  | .SpanGlobal, .SpanReadOnly => ss.globalRO
  | .SpanGlobal, .SpanReadWrite => ss.globalRW
  | .SpanLocal, .SpanReadOnly => ss.localRO
  | .SpanLocal, .SpanReadWrite => ss.localRW

/-- Guard: the handle for one acquisition.  done is the identity of the
one-shot signal shared by all the latches of the Guard, doneSignaled its
fired state; the packed latchesPtrs/latchesLens pair of slices is embedded as
four latch lists, one per (scope, access) slot. -/
structure Guard where
  done : Nat
  doneSignaled : Bool
  globalRO : List Latch
  globalRW : List Latch
  localRO : List Latch
  localRW : List Latch
deriving DecidableEq, Repr, Inhabited

/-- Guard.latches(s, a). -/
def Guard.latches (lg : Guard) (s : SpanScope) (a : SpanAccess) : List Latch :=
  match s, a with
  | .SpanGlobal, .SpanReadOnly => lg.globalRO
  | .SpanGlobal, .SpanReadWrite => lg.globalRW
  | .SpanLocal, .SpanReadOnly => lg.localRO
  | .SpanLocal, .SpanReadWrite => lg.localRW

/-- The loop body of newGuard for one (scope, access) slot: slice the next n
entries off the allocated latch pool (latches[:n], a run-time fault if the
pool is shorter), set span, scope-adjusted timestamp and the shared done
pointer on each, and return the initialized slice together with the rest of
the pool (latches[n:]).  The id field stays zero: it is set in
Manager.insertLocked, under lock. -/
def newGuardSlot (pool : List Latch) (ss : List Span) (ts : Timestamp)
    (s : SpanScope) (done : Nat) : Option (List Latch × List Latch) :=
  let n := ss.length
  if n ≤ pool.length then
    some (ss.map fun sp => { id := 0, span := sp, ts := ifGlobal ts s, done := done },
      pool.drop n)
  else
    none

/-- newGuard: count the declared spans over all scopes and accesses, allocate
the Guard and a pool of that many latches (allocGuardAndLatches), fill one
slot per (scope, access) in scope-major order, and fault with "alloc too
large" if the pool is not consumed exactly.  Both faults are embedded as
none.  The done identity of the fresh signal of the Guard is a parameter. -/
def newGuard (spans : SpanSet) (ts : Timestamp) (done : Nat) : Option Guard :=
  let nLatches :=
    (spans.GetSpans .SpanReadOnly .SpanGlobal).length +
    (spans.GetSpans .SpanReadWrite .SpanGlobal).length +
    (spans.GetSpans .SpanReadOnly .SpanLocal).length +
    (spans.GetSpans .SpanReadWrite .SpanLocal).length
  let pool : List Latch := List.replicate nLatches default
  match newGuardSlot pool (spans.GetSpans .SpanReadOnly .SpanGlobal) ts .SpanGlobal done with
  | none => none
  | some (gRO, pool) =>
    match newGuardSlot pool (spans.GetSpans .SpanReadWrite .SpanGlobal) ts .SpanGlobal done with
    | none => none
    | some (gRW, pool) =>
      match newGuardSlot pool (spans.GetSpans .SpanReadOnly .SpanLocal) ts .SpanLocal done with
      | none => none
      | some (lRO, pool) =>
        match newGuardSlot pool (spans.GetSpans .SpanReadWrite .SpanLocal) ts .SpanLocal done with
        | none => none
        | some (lRW, pool) =>
          if pool.length ≠ 0 then
            none
          else
            some { done := done, doneSignaled := false,
                   globalRO := gRO, globalRW := gRW, localRO := lRO, localRW := lRW }

/-- All latches of a Guard, in the (scope, access) iteration order of the
manager loops. -/
def Guard.allLatches (lg : Guard) : List Latch :=
  lg.globalRO ++ lg.globalRW ++ lg.localRO ++ lg.localRW

/-! ## Core B: Manager state, sequence, wait, Acquire, Release -/

/-- scopedManager: per-scope state of the Manager.  The readSet linked list
becomes a list (pushBack appends at the back, front pops at the front) and
the two btrees become lists read as multisets: btree.Set appends, Delete
filters by the latch identity, Clone copies the value. -/
structure ScopedManager where
  readSet : List Latch
  treeRO : List Latch
  treeRW : List Latch
deriving DecidableEq, Repr, Inhabited

/-- flushReadSetLocked: pop every latch off the front of the readSet and Set
it into the read-only tree. -/
def ScopedManager.flushReadSet (sm : ScopedManager) : ScopedManager :=
  { readSet := [], treeRO := sm.treeRO ++ sm.readSet, treeRW := sm.treeRW }

/-- Manager: the id allocator and one scopedManager per scope. -/
structure Manager where
  idAlloc : Nat
  globalSM : ScopedManager
  localSM : ScopedManager
deriving DecidableEq, Repr, Inhabited

/-- Manager.scopes. -/
def Manager.scopes (m : Manager) (s : SpanScope) : ScopedManager :=
  match s with
  | .SpanGlobal => m.globalSM
  | .SpanLocal => m.localSM

/-- snapshot: the per-scope, per-access cloned trees.  A tree that
snapshotLocked does not clone stays the zero-value btree, i.e. empty. -/
structure Snapshot where
  gRO : List Latch
  gRW : List Latch
  lRO : List Latch
  lRW : List Latch
deriving DecidableEq, Repr, Inhabited

/-- The body of snapshotLocked for one scope: if the acquisition declares
writes in the scope, flush the readSet into the read-only tree and clone that
tree; if it declares reads or writes, clone the read-write tree. -/
def snapshotScope (sm : ScopedManager) (reading writing : Bool) :
    ScopedManager × List Latch × List Latch :=
  let sm1 := if writing then sm.flushReadSet else sm
  let snapRO := if writing then sm1.treeRO else []
  let snapRW := if writing || reading then sm1.treeRW else []
  (sm1, snapRO, snapRW)

/-- snapshotLocked: capture an immutable snapshot of the manager, limited by
the declared spans; returns the (flush-mutated) manager and the snapshot. -/
def Manager.snapshotLocked (m : Manager) (spans : SpanSet) : Manager × Snapshot :=
  let (gSM, gSnapRO, gSnapRW) := snapshotScope m.globalSM
    (!(spans.GetSpans .SpanReadOnly .SpanGlobal).isEmpty)
    (!(spans.GetSpans .SpanReadWrite .SpanGlobal).isEmpty)
  let (lSM, lSnapRO, lSnapRW) := snapshotScope m.localSM
    (!(spans.GetSpans .SpanReadOnly .SpanLocal).isEmpty)
    (!(spans.GetSpans .SpanReadWrite .SpanLocal).isEmpty)
  ({ idAlloc := m.idAlloc, globalSM := gSM, localSM := lSM },
   { gRO := gSnapRO, gRW := gSnapRW, lRO := lSnapRO, lRW := lSnapRW })

/-- The id assignment of insertLocked over one latch slice: every latch gets
latch.id = m.nextID(), which increments idAlloc and returns it.  Returns the
latches with ids set and the new idAlloc. -/
def assignIDs : Nat → List Latch → List Latch × Nat
  | id0, [] => ([], id0)
  | id0, la :: rest =>
      let (rest1, idN) := assignIDs (id0 + 1) rest
      ({ la with id := id0 + 1 } :: rest1, idN)

/-- insertLocked: for each scope and access, assign fresh ids to the latches
of the Guard, pushBack the read-only latches onto the readSet of the scope
and Set the read-write latches directly into the read-write tree.  Returns
the mutated manager and the Guard with ids assigned (the Go code mutates the
co-allocated latches in place). -/
def Manager.insertLocked (m : Manager) (lg : Guard) : Manager × Guard :=
  let (gRO, id1) := assignIDs m.idAlloc lg.globalRO
  let (gRW, id2) := assignIDs id1 lg.globalRW
  let (lRO, id3) := assignIDs id2 lg.localRO
  let (lRW, id4) := assignIDs id3 lg.localRW
  ({ idAlloc := id4,
     globalSM := { readSet := m.globalSM.readSet ++ gRO,
                   treeRO := m.globalSM.treeRO,
                   treeRW := m.globalSM.treeRW ++ gRW },
     localSM := { readSet := m.localSM.readSet ++ lRO,
                  treeRO := m.localSM.treeRO,
                  treeRW := m.localSM.treeRW ++ lRW } },
   { lg with globalRO := gRO, globalRW := gRW, localRO := lRO, localRW := lRW })

/-- sequence: build the Guard, lock the manager, capture the snapshot, insert
the latches of the Guard, unlock.  none embeds the run-time faults of
newGuard. -/
def Manager.sequence (m : Manager) (spans : SpanSet) (ts : Timestamp) (done : Nat) :
    Option (Guard × Snapshot × Manager) :=
  match newGuard spans ts done with
  | none => none
  | some lg =>
    let (m1, snap) := m.snapshotLocked spans
    let (m2, lg1) := m1.insertLocked lg
    some (lg1, snap, m2)

/-- The select statement loop of iterAndWait over the latches it blocks on:
for each latch the waiter selects on the done channel of the latch and the
ctx done channel.  Cancellation is embedded by a budget: some k means the
context fires after k more selects complete, none means the context never
fires.  Returns the remaining budget, or the cancellation error. -/
def selectLoop : List Latch → Option Nat → Except String (Option Nat)
  | [], budget => .ok budget
  | _ :: rest, none => selectLoop rest none
  | _ :: _, some 0 => .error "context canceled"
  | _ :: rest, some (k + 1) => selectLoop rest (some k)

/-- The wait work of Manager.wait for one owned latch: the blocks lists of
waitBlocksFor, selected on in order. -/
def waitOne (treeRW treeRO : List Latch) (a : SpanAccess) (search : Latch)
    (ts : Timestamp) (fired : List Nat) (budget : Option Nat) :
    Except String (Option Nat) :=
  selectLoop (waitBlocksFor treeRW treeRO a search ts fired) budget

/-- The inner loop of Manager.wait over the latches of one (scope, access)
slot of the Guard. -/
def waitSlot (treeRW treeRO : List Latch) (a : SpanAccess) (ls : List Latch)
    (ts : Timestamp) (fired : List Nat) (budget : Option Nat) :
    Except String (Option Nat) :=
  match ls with
  | [] => .ok budget
  | la :: rest =>
    match waitOne treeRW treeRO a la ts fired budget with
    | .error e => .error e
    | .ok b1 => waitSlot treeRW treeRO a rest ts fired b1

/-- Manager.wait: for each scope and access, wait for the interfering latches
of the snapshot trees of that scope, for every owned latch. -/
def Manager.wait (snap : Snapshot) (lg : Guard) (ts : Timestamp)
    (fired : List Nat) (budget : Option Nat) : Except String (Option Nat) :=
  match waitSlot snap.gRW snap.gRO .SpanReadOnly lg.globalRO ts fired budget with
  | .error e => .error e
  | .ok b1 =>
    match waitSlot snap.gRW snap.gRO .SpanReadWrite lg.globalRW ts fired b1 with
    | .error e => .error e
    | .ok b2 =>
      match waitSlot snap.lRW snap.lRO .SpanReadOnly lg.localRO ts fired b2 with
      | .error e => .error e
      | .ok b3 => waitSlot snap.lRW snap.lRO .SpanReadWrite lg.localRW ts fired b3

/-- The latch.inReadSet() test: in the Go code a latch is linked into the
readSet list exactly when its next pointer is non-nil; in the list embedding
this is membership of its id in the readSet of its scope. -/
def ScopedManager.inReadSet (sm : ScopedManager) (la : Latch) : Bool :=
  sm.readSet.any fun x => x.id == la.id

/-- One step of removeLocked: remove the latch from the readSet if it is
linked there, otherwise Delete it from the tree of its access. -/
def ScopedManager.removeOne (sm : ScopedManager) (a : SpanAccess) (la : Latch) :
    ScopedManager :=
  if sm.inReadSet la then
    { sm with readSet := sm.readSet.filter fun x => x.id != la.id }
  else
    match a with
    | .SpanReadOnly => { sm with treeRO := sm.treeRO.filter fun x => x.id != la.id }
    | .SpanReadWrite => { sm with treeRW := sm.treeRW.filter fun x => x.id != la.id }

/-- The per-slot loop of removeLocked. -/
def ScopedManager.removeSlot (sm : ScopedManager) (a : SpanAccess) (ls : List Latch) :
    ScopedManager :=
  ls.foldl (fun acc la => acc.removeOne a la) sm

/-- removeLocked: remove every latch of the Guard from its readSet or tree. -/
def Manager.removeLocked (m : Manager) (lg : Guard) : Manager :=
  { idAlloc := m.idAlloc,
    globalSM := (m.globalSM.removeSlot .SpanReadOnly lg.globalRO).removeSlot
      .SpanReadWrite lg.globalRW,
    localSM := (m.localSM.removeSlot .SpanReadOnly lg.localRO).removeSlot
      .SpanReadWrite lg.localRW }

/-- Release: fire the shared done signal of the Guard, then remove its
latches under the mutex.  Returns the mutated manager and the Guard with its
signal fired. -/
def Manager.Release (m : Manager) (lg : Guard) : Manager × Guard :=
  let lg1 := { lg with doneSignaled := true }
  (m.removeLocked lg1, lg1)

/-- Acquire: sequence, then wait against the snapshot; on a wait error release
the Guard and return no Guard together with the error; on success return the
Guard.  The fired and budget arguments embed, respectively, the set of
signals already fired when the lock-free wait runs and the point at which the
context fires. -/
def Manager.Acquire (m : Manager) (spans : SpanSet) (ts : Timestamp) (done : Nat)
    (fired : List Nat) (budget : Option Nat) :
    Option (Manager × Option Guard × Option String) :=
  match m.sequence spans ts done with
  | none => none
  | some (lg, snap, m1) =>
    match Manager.wait snap lg ts fired budget with
    | .error e =>
      let (m2, _) := m1.Release lg
      some (m2, none, some e)
    | .ok _ => some (m1, some lg, none)

/-- All latch ids of a scoped manager are at most n. -/
def ScopedManager.idsLe (sm : ScopedManager) (n : Nat) : Prop :=
  (∀ la ∈ sm.readSet, la.id ≤ n) ∧ (∀ la ∈ sm.treeRO, la.id ≤ n) ∧
    (∀ la ∈ sm.treeRW, la.id ≤ n)

/-- Well-formedness of a manager: every latch it tracks has an id at most the
id allocator, which holds for every state reachable from the zero value
because ids are handed out by incrementing idAlloc under the mutex. -/
def Manager.WF (m : Manager) : Prop :=
  m.globalSM.idsLe m.idAlloc ∧ m.localSM.idsLe m.idAlloc

instance (sm : ScopedManager) (n : Nat) : Decidable (sm.idsLe n) := by
  unfold ScopedManager.idsLe; infer_instance

instance (m : Manager) : Decidable m.WF := by
  unfold Manager.WF; infer_instance

/-! ## Core A: hash join, construction -/

/-- coltypes.T, the physical column type: opaque to the two cores, embedded
as a numeric tag. -/
abbrev ColT := Nat

/-- sqlbase.JoinType, restricted to the values the switch in
NewEqHashJoinerOp distinguishes; INTERSECT_ALL and EXCEPT_ALL stand for
values that fall into the default arm. -/
inductive JoinType
  | INNER
  | LEFT_OUTER
  | RIGHT_OUTER
  | FULL_OUTER
  | LEFT_SEMI
  | LEFT_ANTI
  | INTERSECT_ALL
  | EXCEPT_ALL
deriving DecidableEq, Repr, Inhabited

/-- hashJoinerSourceSpec (the source Operator field is dropped: upstream
operators are external collaborators). -/
structure hashJoinerSourceSpec where
  eqCols : List Nat
  outCols : List Nat
  sourceTypes : List ColT
  outer : Bool
deriving DecidableEq, Repr, Inhabited

/-- hashJoinerSpec. -/
structure hashJoinerSpec where
  joinType : JoinType
  left : hashJoinerSourceSpec
  right : hashJoinerSourceSpec
  rightDistinct : Bool
deriving DecidableEq, Repr, Inhabited

/-- NewEqHashJoinerOp: derive the output columns as all source columns
(leftOutCols = 0..len(leftTypes), rightOutCols = 0..len(rightTypes)), then
switch on the join type: INNER changes nothing; RIGHT, LEFT and FULL OUTER
set the outer flags; LEFT_SEMI forces rightDistinct to true and truncates
rightOutCols to empty; LEFT_ANTI truncates rightOutCols to empty; any other
join type is rejected with an error.  The result is the spec the operator is
constructed with. -/
def NewEqHashJoinerOp (leftEqCols rightEqCols : List Nat)
    (leftTypes rightTypes : List ColT) (rightDistinct : Bool)
    (joinType : JoinType) : Except String hashJoinerSpec :=
  let leftOutCols := List.range leftTypes.length
  let rightOutCols := List.range rightTypes.length
  let adjusted : Option (Bool × Bool × Bool × List Nat) :=
    match joinType with
    | .INNER => some (false, false, rightDistinct, rightOutCols)
    | .RIGHT_OUTER => some (false, true, rightDistinct, rightOutCols)
    | .LEFT_OUTER => some (true, false, rightDistinct, rightOutCols)
    | .FULL_OUTER => some (true, true, rightDistinct, rightOutCols)
    | .LEFT_SEMI => some (false, false, true, [])
    | .LEFT_ANTI => some (false, false, rightDistinct, [])
    | _ => none
  match adjusted with
  | none => .error "hash join of type not supported"
  | some (leftOuter, rightOuter, rd, rOutCols) =>
    .ok { joinType := joinType,
          left := { eqCols := leftEqCols, outCols := leftOutCols,
                    sourceTypes := leftTypes, outer := leftOuter },
          right := { eqCols := rightEqCols, outCols := rOutCols,
                     sourceTypes := rightTypes, outer := rightOuter },
          rightDistinct := rd }

/-! ## Core A: state machine, build, probe driver, emitUnmatched -/

/-- hashJoinerState. -/
inductive hashJoinerState
  | hjBuilding
  | hjProbing
  | hjEmittingUnmatched
deriving DecidableEq, Repr, Inhabited

/-- The arrays hashJoinEqOp.build allocates once the build source has been
drained into vals, and the state it leaves the operator in.  valsLength is
ht.vals.length after the drain.  The drain itself (ht.build) and
ht.allocateVisited live in the hash-table file, outside the excerpt; the
visited field is modelled from the spec: visited[0..vals.length], both same
and visited zero-filled. -/
structure BuildAlloc where
  same : Option (List Nat)
  visited : Option (List Bool)
  buildRowMatched : Option (List Bool)
  runningState : hashJoinerState
deriving DecidableEq, Repr, Inhabited

/-- hashJoinEqOp.build, after the drain: if the build side is not distinct,
allocate same (length vals.length+1, zero-filled) and visited (modelled from
the spec, same shape); if the right side is outer, allocate buildRowMatched
of length vals.length, zero-filled; then move to the probing state. -/
def build (valsLength : Nat) (rightDistinct rightOuter : Bool) : BuildAlloc :=
  { same := if rightDistinct then none
            else some (List.replicate (valsLength + 1) 0),
    visited := if rightDistinct then none
               else some (List.replicate (valsLength + 1) false),
    buildRowMatched := if rightOuter then some (List.replicate valsLength false)
                       else none,
    runningState := .hjProbing }

/-- Modelled from the spec: the probe-side input to collection.  The
hash-table resolution machinery (lookupInitial, check, distinctCheck,
findNext, same-chain threading) is not part of the excerpt; a probe input
batch is represented by the sequence of (probeIdx, buildIdx) match pairs its
collection enumerates, in enumeration order. -/
def PendingPairs := List (Nat × Nat)
deriving DecidableEq, Repr, Inhabited

/-- The probe-side state exec works on: prevPending embeds prevBatch together
with prevBatchResumeIdx (the not yet emitted tail of the enumeration of the
split batch), inputs the remaining batches of the left source; the source
returns a zero-length batch once inputs is exhausted. -/
structure ExecState where
  prevPending : Option PendingPairs
  inputs : List PendingPairs
deriving DecidableEq, Repr, Inhabited

/-- Modelled from the spec: collect / distinctCollect.  Emits pairs from the
enumeration, up to outputBatchSize per call; when the enumeration is cut off
the remainder is recorded so that the next exec call resumes from it
(prevBatch and prevBatchResumeIdx). -/
def collectPairs (outputBatchSize : Nat) (pending : PendingPairs) :
    PendingPairs × Option PendingPairs :=
  (pending.take outputBatchSize,
   if pending.length ≤ outputBatchSize then none
   else some (pending.drop outputBatchSize))

/-- The fresh-batch loop of hashJoinProber.exec: pull batches from the left
source until one produces a non-empty output or the source is exhausted;
prev threads the prevBatch field, which collection overwrites on a split. -/
def execGo (outputBatchSize : Nat) (prev : Option PendingPairs) :
    List PendingPairs → Nat × ExecState
  | [] => (0, { prevPending := prev, inputs := [] })
  | b :: rest =>
      let (res, rem) := collectPairs outputBatchSize b
      let prev1 := match rem with
        | some r => some r
        | none => prev
      if res.length > 0 then (res.length, { prevPending := prev1, inputs := rest })
      else execGo outputBatchSize prev1 rest

/-- hashJoinProber.exec: if a previous batch was split, resume collecting
from it (clearing prevBatch first, collection may set it again); otherwise
run the fresh-batch loop.  Returns the length congregate gives the output
batch and the new probe state. -/
def exec (outputBatchSize : Nat) (st : ExecState) : Nat × ExecState :=
  match st.prevPending with
  | some pending =>
      let (res, rem) := collectPairs outputBatchSize pending
      (res.length, { prevPending := rem, inputs := st.inputs })
  | none => execGo outputBatchSize none st.inputs

/-- The scan loop of hashJoinEqOp.emitUnmatched: walk rowIdx while fewer than
outputBatchSize rows have been emitted and rowIdx < vals.length, appending
every row whose buildRowMatched entry is false to buildIdx.  Returns the
emitted buildIdx list and the final rowIdx.  vals.length is the length of
buildRowMatched, the array build allocated over the build rows. -/
def emitUnmatchedLoop (matched : List Bool) (outputBatchSize : Nat)
    (rowIdx : Nat) (acc : List Nat) : List Nat × Nat :=
  if h : acc.length < outputBatchSize ∧ rowIdx < matched.length then
    let acc1 := if matched.get ⟨rowIdx, h.2⟩ then acc else acc ++ [rowIdx]
    emitUnmatchedLoop matched outputBatchSize (rowIdx + 1) acc1
  else
    (acc, rowIdx)
termination_by matched.length - rowIdx

/-- The operator state the Next loop works on.  valsLength is the number of
build rows the (external) hash-table build drains from the right source. -/
structure HJOpState where
  runningState : hashJoinerState
  rightDistinct : Bool
  rightOuter : Bool
  outputBatchSize : Nat
  valsLength : Nat
  execSt : ExecState
  buildRowMatched : List Bool
  emitRowIdx : Nat
deriving DecidableEq, Repr, Inhabited

/-- The hjEmittingUnmatched arm of Next: run emitUnmatched and return its
batch, preserving rowIdx across calls. -/
def doEmit (op : HJOpState) : HJOpState × Nat :=
  let (emitted, rowIdx1) :=
    emitUnmatchedLoop op.buildRowMatched op.outputBatchSize op.emitRowIdx []
  ({ op with emitRowIdx := rowIdx1 }, emitted.length)

/-- The hjBuilding arm of Next: run build and install its allocations, moving
to hjProbing, then continue the loop. -/
def buildTransition (op : HJOpState) : HJOpState :=
  let al := build op.valsLength op.rightDistinct op.rightOuter
  { op with runningState := al.runningState,
            buildRowMatched := al.buildRowMatched.getD op.buildRowMatched }

/-- hashJoinEqOp.Next: loop on the running state.  hjBuilding builds and
continues; hjProbing runs the prober; a zero-length probe batch moves to
hjEmittingUnmatched when the join is an outer join on the build side and
otherwise is returned to the caller; a non-empty probe batch is returned
directly; hjEmittingUnmatched emits unmatched build rows.  Returns the new
operator state and the length of the returned batch. -/
def Next (op : HJOpState) : HJOpState × Nat :=
  let op0 := match op.runningState with
    | .hjBuilding => buildTransition op
    | _ => op
  match op0.runningState with
  | .hjProbing =>
      let (len, e1) := exec op0.outputBatchSize op0.execSt
      let op1 := { op0 with execSt := e1 }
      if len == 0 && op0.rightOuter then
        doEmit { op1 with runningState := .hjEmittingUnmatched }
      else
        (op1, len)
  | .hjEmittingUnmatched => doEmit op0
  | .hjBuilding => (op0, 0)

/-! ## Core A: congregate -/

/-- The output batch as congregate touches it: the projected left and right
column contents (one representative column per side), the set of positions
with a null bit set on the right output columns, and the batch length. -/
structure OutputBatch where
  leftCol : List Int
  rightCol : List Int
  rightNulls : List Nat
  length : Nat
deriving DecidableEq, Repr, Inhabited

/-- ColVec.Copy with a selection vector: gather src at the first n selection
indices. -/
def gatherCopy (src : List Int) (sel : List Nat) (n : Nat) : List Int :=
  (sel.take n).map fun j => src.getD j 0

/-- The buildRowMatched marking loop of congregate: for each emitted pair
that is not a probe-unmatched slot, set buildRowMatched at its buildIdx. -/
def markMatched (matched : List Bool) (buildIdx : List Nat)
    (probeRowUnmatched : List Bool) (leftOuter : Bool) (n : Nat) : List Bool :=
  (List.range n).foldl
    (fun acc i =>
      if leftOuter && probeRowUnmatched.getD i false then acc
      else acc.set (buildIdx.getD i 0) true)
    matched

/-- The prober fields congregate reads: the accumulated build-side column
(vals, one representative column of length vals.length), the outer flags,
and the scratch arrays filled by collection. -/
structure ProberCtx where
  valsLength : Nat
  valsCol : List Int
  leftOuter : Bool
  rightOuter : Bool
  probeRowUnmatched : List Bool
  buildIdx : List Nat
  probeIdx : List Nat
  buildRowMatched : List Bool
deriving DecidableEq, Repr, Inhabited

/-- hashJoinProber.congregate: (1) if the hash table is non-empty, project the
build-side output columns by gathering vals at buildIdx; with an empty hash
table there is nothing to copy and the projection is skipped entirely;
(2) if the join is outer on the probe side, set the null bit of every right
output column at each position whose probeRowUnmatched entry is true;
(3) project the probe-side output columns by gathering the input batch at
probeIdx; (4) if the join is outer on the build side, mark the matched build
rows; (5) set the output batch length to nResults.  probeCol is the
representative input-batch column. -/
def congregate (p : ProberCtx) (out : OutputBatch) (nResults : Nat)
    (probeCol : List Int) : OutputBatch × List Bool :=
  let out1 := if p.valsLength > 0 then
      { out with rightCol := gatherCopy p.valsCol p.buildIdx nResults }
    else out
  let out2 := if p.leftOuter then
      { out1 with rightNulls := out1.rightNulls ++
          ((List.range p.probeRowUnmatched.length).filter
            fun i => p.probeRowUnmatched.getD i false) }
    else out1
  let out3 := { out2 with leftCol := gatherCopy probeCol p.probeIdx nResults }
  let matched1 := if p.rightOuter then
      markMatched p.buildRowMatched p.buildIdx p.probeRowUnmatched p.leftOuter nResults
    else p.buildRowMatched
  ({ out3 with length := nResults }, matched1)

/-- The output column types of the batch newHashJoinProber allocates: the
types of the left output columns followed by the types of the right output
columns. -/
def outColTypes (spec : hashJoinerSpec) : List ColT :=
  spec.left.outCols.map (fun c => spec.left.sourceTypes.getD c 0) ++
    spec.right.outCols.map (fun c => spec.right.sourceTypes.getD c 0)

/-- Invariant of the probe state: a recorded prevBatch always has pending
pairs left (collection only stores it when the enumeration was cut off). -/
def ExecInv (st : ExecState) : Prop :=
  match st.prevPending with
  | none => True
  | some p => p ≠ []

instance (st : ExecState) : Decidable (ExecInv st) := by
  unfold ExecInv
  split <;> infer_instance

/-!
# Theorems

Helper lemmas first, then for each claim one theorem (with its witness or
counterexample where applicable).
-/

theorem notMemFired (fired : List Nat) (x : Nat) (h : fired.contains x = false) :
    x ∉ fired := by
  simp only [List.elem_eq_mem, decide_eq_false_iff_not] at h
  exact h

/-- C1: Global-scope timestamp interference filtering: a read latch at
timestamp ts ignores (does not wait on) an overlapping write latch at
timestamp other iff ts is non-empty and ts < other; a write latch at ts
ignores an overlapping read latch at other iff other is non-empty and
other < ts; write-vs-write latches always interfere; and every Local-scope
latch is assigned the empty timestamp, which is never skipped by either
ignore function, so it interferes with all overlapping latches. -/
theorem timestamp_interference_filtering (treeRW treeRO tree : List Latch)
    (search : Latch) (ts : Timestamp) (fired : List Nat) (other : Latch)
    (hmem : other ∈ tree) (hov : other.span.overlaps search.span = true)
    (hfired : fired.contains other.done = false) :
    (other ∉ iterAndWaitBlocks tree search ts ignoreLater fired ↔
      (ts.IsEmpty = false ∧ ts.Less other.ts = true)) ∧
    (other ∉ iterAndWaitBlocks tree search ts ignoreEarlier fired ↔
      (other.ts.IsEmpty = false ∧ other.ts.Less ts = true)) ∧
    (other ∈ iterAndWaitBlocks tree search ts ignoreNothing fired) ∧
    (ifGlobal ts .SpanLocal = Timestamp.empty) ∧
    (∀ ts2 : Timestamp, ignoreLater ts2 Timestamp.empty = false ∧
      ignoreEarlier ts2 Timestamp.empty = false) ∧
    (waitBlocksFor treeRW treeRO .SpanReadOnly search ts fired =
      iterAndWaitBlocks treeRW search ts ignoreLater fired) ∧
    (waitBlocksFor treeRW treeRO .SpanReadWrite search ts fired =
      iterAndWaitBlocks treeRW search ts ignoreNothing fired ++
        iterAndWaitBlocks treeRO search ts ignoreEarlier fired) := by
  have hnm := notMemFired fired other.done hfired
  refine ⟨?_, ?_, ?_, rfl, ?_, rfl, rfl⟩
  · rw [iterAndWaitBlocks, List.mem_filter]
    simp [hmem, hov, hfired, hnm, ignoreLater]
  · rw [iterAndWaitBlocks, List.mem_filter]
    simp [hmem, hov, hfired, hnm, ignoreEarlier]
  · rw [iterAndWaitBlocks, List.mem_filter]
    simp [hmem, hov, hfired, hnm, ignoreNothing]
  · intro ts2
    constructor
    · simp [ignoreLater, Timestamp.Less, Timestamp.empty]
    · simp [ignoreEarlier, Timestamp.IsEmpty, Timestamp.empty]

/-- Witness for C1: a writer at wall time 10 over [0,2) against a search
latch over [1,3) carrying ts wall time 5, with no fired signals. -/
theorem timestamp_interference_filtering_witness :
    ((⟨1, ⟨0, 2⟩, ⟨10, 0⟩, 5⟩ : Latch) ∉
      iterAndWaitBlocks [⟨1, ⟨0, 2⟩, ⟨10, 0⟩, 5⟩] ⟨2, ⟨1, 3⟩, ⟨5, 0⟩, 6⟩ ⟨5, 0⟩
        ignoreLater [] ↔
      ((⟨5, 0⟩ : Timestamp).IsEmpty = false ∧
        Timestamp.Less ⟨5, 0⟩ (⟨10, 0⟩ : Timestamp) = true)) ∧
    ((⟨1, ⟨0, 2⟩, ⟨10, 0⟩, 5⟩ : Latch) ∈
      iterAndWaitBlocks [⟨1, ⟨0, 2⟩, ⟨10, 0⟩, 5⟩] ⟨2, ⟨1, 3⟩, ⟨5, 0⟩, 6⟩ ⟨5, 0⟩
        ignoreNothing []) :=
  ⟨(timestamp_interference_filtering [] [] [⟨1, ⟨0, 2⟩, ⟨10, 0⟩, 5⟩]
      ⟨2, ⟨1, 3⟩, ⟨5, 0⟩, 6⟩ ⟨5, 0⟩ [] ⟨1, ⟨0, 2⟩, ⟨10, 0⟩, 5⟩
      (by decide) (by decide) (by decide)).1,
   (timestamp_interference_filtering [] [] [⟨1, ⟨0, 2⟩, ⟨10, 0⟩, 5⟩]
      ⟨2, ⟨1, 3⟩, ⟨5, 0⟩, 6⟩ ⟨5, 0⟩ [] ⟨1, ⟨0, 2⟩, ⟨10, 0⟩, 5⟩
      (by decide) (by decide) (by decide)).2.2.1⟩

/-- C9: during the lock-free wait, a latch whose done signal has already
fired is skipped by iterAndWait without selecting on its channel: it never
appears in the list of latches the waiter blocks on. -/
theorem wait_skips_signaled_latches (tree : List Latch) (search : Latch)
    (ts : Timestamp) (ignore : Timestamp → Timestamp → Bool) (fired : List Nat)
    (la : Latch) (hfired : fired.contains la.done = true) :
    la ∉ iterAndWaitBlocks tree search ts ignore fired := by
  intro hmem
  rw [iterAndWaitBlocks, List.mem_filter] at hmem
  simp only [hfired, Bool.not_true, Bool.and_false, Bool.false_and] at hmem
  exact absurd hmem.2 (by simp)

/-- Witness for C9: an overlapping latch whose signal 5 has already fired is
not blocked on. -/
theorem wait_skips_signaled_latches_witness :
    (⟨1, ⟨0, 2⟩, ⟨0, 0⟩, 5⟩ : Latch) ∉
      iterAndWaitBlocks [⟨1, ⟨0, 2⟩, ⟨0, 0⟩, 5⟩] ⟨2, ⟨1, 3⟩, ⟨0, 0⟩, 6⟩ ⟨0, 0⟩
        ignoreNothing [5] :=
  wait_skips_signaled_latches [⟨1, ⟨0, 2⟩, ⟨0, 0⟩, 5⟩] ⟨2, ⟨1, 3⟩, ⟨0, 0⟩, 6⟩
    ⟨0, 0⟩ ignoreNothing [5] ⟨1, ⟨0, 2⟩, ⟨0, 0⟩, 5⟩ (by decide)

theorem newGuardSlot_replicate (k : Nat) (ss : List Span) (ts : Timestamp)
    (s : SpanScope) (done : Nat) (h : ss.length ≤ k) :
    newGuardSlot (List.replicate k (default : Latch)) ss ts s done =
      some (ss.map fun sp => { id := 0, span := sp, ts := ifGlobal ts s, done := done },
        List.replicate (k - ss.length) (default : Latch)) := by
  unfold newGuardSlot
  simp [h]

theorem newGuard_eq (spans : SpanSet) (ts : Timestamp) (done : Nat) :
    newGuard spans ts done = some
      { done := done, doneSignaled := false,
        globalRO := spans.globalRO.map fun sp =>
          { id := 0, span := sp, ts := ifGlobal ts .SpanGlobal, done := done },
        globalRW := spans.globalRW.map fun sp =>
          { id := 0, span := sp, ts := ifGlobal ts .SpanGlobal, done := done },
        localRO := spans.localRO.map fun sp =>
          { id := 0, span := sp, ts := ifGlobal ts .SpanLocal, done := done },
        localRW := spans.localRW.map fun sp =>
          { id := 0, span := sp, ts := ifGlobal ts .SpanLocal, done := done } } := by
  obtain ⟨g1, g2, l1, l2⟩ := spans
  simp only [newGuard, SpanSet.GetSpans]
  rw [newGuardSlot_replicate _ _ _ _ _ (by omega)]
  simp only []
  rw [show g1.length + g2.length + l1.length + l2.length - g1.length
      = g2.length + l1.length + l2.length from by omega]
  rw [newGuardSlot_replicate _ _ _ _ _ (by omega)]
  simp only []
  rw [show g2.length + l1.length + l2.length - g2.length = l1.length + l2.length from
    by omega]
  rw [newGuardSlot_replicate _ _ _ _ _ (by omega)]
  simp only []
  rw [show l1.length + l2.length - l1.length = l2.length from by omega]
  rw [newGuardSlot_replicate _ _ _ _ _ (by omega)]
  simp

/-- C10: newGuard allocates exactly one latch per declared span summed over
all scopes and accesses, points every latch at the shared done signal of the
Guard, and consumes the allocated latch slice exactly: the "alloc too large"
fault (embedded as none) is unreachable for all inputs. -/
theorem newGuard_exact_allocation (spans : SpanSet) (ts : Timestamp) (done : Nat) :
    ∃ lg, newGuard spans ts done = some lg ∧
      lg.allLatches.length =
        (spans.GetSpans .SpanReadOnly .SpanGlobal).length +
        (spans.GetSpans .SpanReadWrite .SpanGlobal).length +
        (spans.GetSpans .SpanReadOnly .SpanLocal).length +
        (spans.GetSpans .SpanReadWrite .SpanLocal).length ∧
      (∀ s a, (lg.latches s a).length = (spans.GetSpans a s).length) ∧
      lg.done = done ∧
      (∀ la ∈ lg.allLatches, la.done = done) := by
  refine ⟨_, newGuard_eq spans ts done, ?_, ?_, rfl, ?_⟩
  · simp [Guard.allLatches, SpanSet.GetSpans]
    omega
  · intro s a
    cases s <;> cases a <;> simp [Guard.latches, SpanSet.GetSpans]
  · intro la hla
    simp only [Guard.allLatches, List.mem_append, List.mem_map] at hla
    rcases hla with ((⟨sp, _, h⟩ | ⟨sp, _, h⟩) | ⟨sp, _, h⟩) | ⟨sp, _, h⟩ <;>
      subst h <;> rfl

theorem map_getD_range (l : List ColT) :
    (List.range l.length).map (fun c => l.getD c 0) = l := by
  apply List.ext_getElem
  · simp
  · intro i h1 h2
    simp [List.getD_eq_getElem?_getD, List.getElem?_eq_getElem h2]

/-- Counterexample to C2: with join type LEFT ANTI and rightDistinct passed
as false, the constructed spec keeps rightDistinct false; the switch only
forces rightDistinct for LEFT SEMI. -/
theorem left_anti_rightDistinct_not_forced :
    (NewEqHashJoinerOp [0] [0] [10] [20] false JoinType.LEFT_ANTI).toOption.map
      hashJoinerSpec.rightDistinct = some false := by
  decide

/-- C2 (amended): LEFT SEMI empties the right output columns and forces
rightDistinct true; LEFT ANTI empties the right output columns and keeps the
caller rightDistinct; every other supported join type outputs all source
columns, left followed by right, keeping the caller rightDistinct. -/
theorem output_columns_by_join_type (leftEqCols rightEqCols : List Nat)
    (leftTypes rightTypes : List ColT) (rightDistinct : Bool) :
    (∃ s, NewEqHashJoinerOp leftEqCols rightEqCols leftTypes rightTypes rightDistinct
        JoinType.LEFT_SEMI = .ok s ∧ s.right.outCols = [] ∧ s.rightDistinct = true ∧
        outColTypes s = leftTypes) ∧
    (∃ s, NewEqHashJoinerOp leftEqCols rightEqCols leftTypes rightTypes rightDistinct
        JoinType.LEFT_ANTI = .ok s ∧ s.right.outCols = [] ∧
        s.rightDistinct = rightDistinct ∧ outColTypes s = leftTypes) ∧
    (∀ jt, (jt = JoinType.INNER ∨ jt = JoinType.LEFT_OUTER ∨
        jt = JoinType.RIGHT_OUTER ∨ jt = JoinType.FULL_OUTER) →
      ∃ s, NewEqHashJoinerOp leftEqCols rightEqCols leftTypes rightTypes rightDistinct
        jt = .ok s ∧ s.left.outCols = List.range leftTypes.length ∧
        s.right.outCols = List.range rightTypes.length ∧
        s.rightDistinct = rightDistinct ∧ outColTypes s = leftTypes ++ rightTypes) := by
  have hfull : ∀ a b : List ColT,
      (List.range a.length).map (fun c => a.getD c 0) ++
        (List.range b.length).map (fun c => b.getD c 0) = a ++ b := by
    intro a b
    rw [map_getD_range, map_getD_range]
  refine ⟨⟨_, rfl, rfl, rfl, ?_⟩, ⟨_, rfl, rfl, rfl, ?_⟩, ?_⟩
  · show (List.range leftTypes.length).map (fun c => leftTypes.getD c 0) ++
      ([] : List Nat).map (fun c => rightTypes.getD c 0) = leftTypes
    rw [map_getD_range]
    simp
  · show (List.range leftTypes.length).map (fun c => leftTypes.getD c 0) ++
      ([] : List Nat).map (fun c => rightTypes.getD c 0) = leftTypes
    rw [map_getD_range]
    simp
  · rintro jt (rfl | rfl | rfl | rfl) <;> exact ⟨_, rfl, rfl, rfl, rfl, hfull _ _⟩

/-- Witness for C2 (amended), at single-column sources and an INNER join. -/
theorem output_columns_by_join_type_witness :
    ∃ s, NewEqHashJoinerOp [0] [0] [10] [20] false JoinType.INNER = .ok s ∧
      s.left.outCols = List.range 1 ∧ s.right.outCols = List.range 1 ∧
      s.rightDistinct = false ∧ outColTypes s = [10] ++ [20] :=
  (output_columns_by_join_type [0] [0] [10] [20] false).2.2 JoinType.INNER
    (Or.inl rfl)

theorem doEmit_state (op : HJOpState) : (doEmit op).1.runningState = op.runningState := by
  simp [doEmit]

/-- C5: in the probing state, Next transitions to hjEmittingUnmatched exactly
when the prober produces an empty batch and the join is an outer join on the
build (right) side; an empty batch without that flag is returned to the
caller with the state left at probing; a non-empty batch is returned with the
state left at probing.  A spec constructed by NewEqHashJoinerOp has the
right-outer flag set exactly for RIGHT OUTER and FULL OUTER joins. -/
theorem probing_state_transitions (op : HJOpState)
    (hp : op.runningState = .hjProbing) :
    ((Next op).1.runningState = .hjEmittingUnmatched ↔
      ((exec op.outputBatchSize op.execSt).1 = 0 ∧ op.rightOuter = true)) ∧
    ((exec op.outputBatchSize op.execSt).1 = 0 → op.rightOuter = false →
      Next op = ({ op with execSt := (exec op.outputBatchSize op.execSt).2 }, 0)) ∧
    ((exec op.outputBatchSize op.execSt).1 ≠ 0 →
      (Next op).1.runningState = .hjProbing ∧
      Next op = ({ op with execSt := (exec op.outputBatchSize op.execSt).2 },
        (exec op.outputBatchSize op.execSt).1)) ∧
    (∀ (lE rE : List Nat) (lT rT : List ColT) (rd : Bool) (jt : JoinType)
        (s : hashJoinerSpec),
      NewEqHashJoinerOp lE rE lT rT rd jt = .ok s →
      (s.right.outer = true ↔ (jt = .RIGHT_OUTER ∨ jt = .FULL_OUTER))) := by
  rcases hx : exec op.outputBatchSize op.execSt with ⟨len, e1⟩
  refine ⟨?_, ?_, ?_, ?_⟩
  · by_cases hl : len = 0
    · subst hl
      cases hro : op.rightOuter
      · simp [Next, hp, hx, hro]
      · simp [Next, hp, hx, hro, doEmit]
    · cases hro : op.rightOuter <;> simp [Next, hp, hx, hro, hl]
  · intro hl hro
    subst hl
    simp [Next, hp, hx, hro]
  · intro hl
    cases hro : op.rightOuter <;> simp [Next, hp, hx, hro, hl]
  · intro lE rE lT rT rd jt s hok
    cases jt <;> simp [NewEqHashJoinerOp] at hok <;> subst hok <;> simp

/-- Witness for C5: a probing operator whose probe source is exhausted and
whose join is right outer moves to hjEmittingUnmatched. -/
theorem probing_state_transitions_witness :
    (Next { runningState := .hjProbing, rightDistinct := true, rightOuter := true,
            outputBatchSize := 2, valsLength := 1,
            execSt := { prevPending := none, inputs := [] },
            buildRowMatched := [false], emitRowIdx := 0 }).1.runningState =
      .hjEmittingUnmatched :=
  ((probing_state_transitions
      { runningState := .hjProbing, rightDistinct := true, rightOuter := true,
        outputBatchSize := 2, valsLength := 1,
        execSt := { prevPending := none, inputs := [] },
        buildRowMatched := [false], emitRowIdx := 0 } rfl).1).mpr
    ⟨rfl, rfl⟩

/-- C7: when the hash table holds no build rows, congregate skips the
build-side column projection entirely, and for a left-outer join the right
output columns get their null bits set at every position where
probeRowUnmatched is true. -/
theorem congregate_empty_build (p : ProberCtx) (out : OutputBatch) (nResults : Nat)
    (probeCol : List Int) (hvals : p.valsLength = 0) :
    ((congregate p out nResults probeCol).1.rightCol = out.rightCol) ∧
    (p.leftOuter = true → ∀ i, p.probeRowUnmatched.getD i false = true →
      i ∈ (congregate p out nResults probeCol).1.rightNulls) := by
  constructor
  · cases hlo : p.leftOuter <;> simp [congregate, hvals, hlo]
  · intro hlo i hi
    have hilt : i < p.probeRowUnmatched.length := by
      by_contra hge
      push_neg at hge
      rw [List.getD_eq_default] at hi
      · exact absurd hi (by simp)
      · exact hge
    rw [List.getD_eq_getElem?_getD, List.getElem?_eq_getElem hilt] at hi
    simp only [Option.getD_some] at hi
    simp [congregate, hvals, hlo, List.mem_filter, List.mem_range, hilt, hi]

/-- Witness for C7: one unmatched probe row against an empty build side; the
right column is untouched and position 0 is nulled. -/
theorem congregate_empty_build_witness :
    ((congregate
        { valsLength := 0, valsCol := [], leftOuter := true, rightOuter := false,
          probeRowUnmatched := [true], buildIdx := [0], probeIdx := [0],
          buildRowMatched := [] }
        { leftCol := [], rightCol := [7], rightNulls := [], length := 0 }
        1 [4]).1.rightCol = [7]) ∧
    (0 ∈ (congregate
        { valsLength := 0, valsCol := [], leftOuter := true, rightOuter := false,
          probeRowUnmatched := [true], buildIdx := [0], probeIdx := [0],
          buildRowMatched := [] }
        { leftCol := [], rightCol := [7], rightNulls := [], length := 0 }
        1 [4]).1.rightNulls) :=
  ⟨(congregate_empty_build
      { valsLength := 0, valsCol := [], leftOuter := true, rightOuter := false,
        probeRowUnmatched := [true], buildIdx := [0], probeIdx := [0],
        buildRowMatched := [] }
      { leftCol := [], rightCol := [7], rightNulls := [], length := 0 }
      1 [4] rfl).1,
   (congregate_empty_build
      { valsLength := 0, valsCol := [], leftOuter := true, rightOuter := false,
        probeRowUnmatched := [true], buildIdx := [0], probeIdx := [0],
        buildRowMatched := [] }
      { leftCol := [], rightCol := [7], rightNulls := [], length := 0 }
      1 [4] rfl).2 rfl 0 (by decide)⟩

/-- Counterexample to C8: with vals.length = 1 the allocated buildRowMatched
array has length 1 (indices 0..vals.length-1), not vals.length+1 = 2 as the
claimed inclusive index range 0..vals.length would require. -/
theorem buildRowMatched_size_cx :
    ((build 1 false true).buildRowMatched.map List.length) = some 1 ∧
      (1 : Nat) ≠ 1 + 1 := by
  decide

/-- C8 (amended): after the build drain, when rightDistinct is false the same
and visited arrays are allocated with size vals.length+1 (indices
0..vals.length), zero-filled; when the right side is outer, buildRowMatched
is allocated zero-filled with size vals.length (indices 0..vals.length-1);
and the operator moves to the probing state. -/
theorem build_allocations (valsLength : Nat) (rightDistinct rightOuter : Bool) :
    (rightDistinct = false →
      (build valsLength rightDistinct rightOuter).same =
        some (List.replicate (valsLength + 1) 0) ∧
      (build valsLength rightDistinct rightOuter).visited =
        some (List.replicate (valsLength + 1) false)) ∧
    (rightDistinct = true →
      (build valsLength rightDistinct rightOuter).same = none ∧
      (build valsLength rightDistinct rightOuter).visited = none) ∧
    (rightOuter = true →
      (build valsLength rightDistinct rightOuter).buildRowMatched =
        some (List.replicate valsLength false)) ∧
    (rightOuter = false →
      (build valsLength rightDistinct rightOuter).buildRowMatched = none) ∧
    (build valsLength rightDistinct rightOuter).runningState = .hjProbing := by
  refine ⟨?_, ?_, ?_, ?_, rfl⟩ <;> rintro rfl <;> simp [build]

/-- Witness for C8 (amended), at vals.length = 2 with a non-distinct build
side and a right outer join. -/
theorem build_allocations_witness :
    (build 2 false true).same = some (List.replicate 3 0) ∧
    (build 2 false true).buildRowMatched = some (List.replicate 2 false) :=
  ⟨((build_allocations 2 false true).1 rfl).1,
   (build_allocations 2 false true).2.2.1 rfl⟩

theorem collectPairs_fst_le (sz : Nat) (pending : PendingPairs) :
    ((collectPairs sz pending).1).length ≤ sz := by
  simp [collectPairs]

theorem collectPairs_snd_ne (sz : Nat) (pending : PendingPairs) (r : PendingPairs)
    (h : (collectPairs sz pending).2 = some r) : r ≠ [] := by
  simp only [collectPairs] at h
  split at h
  · exact absurd h (by simp)
  · rename_i hgt
    injection h with h
    subst h
    have hne : pending.length - sz ≠ 0 := by omega
    intro hnil
    rw [← List.length_eq_zero] at hnil
    rw [List.length_drop] at hnil
    exact hne hnil

theorem execGo_fst_le (sz : Nat) (inputs : List PendingPairs) :
    ∀ prev, (execGo sz prev inputs).1 ≤ sz := by
  induction inputs with
  | nil =>
    intro prev
    simp [execGo]
  | cons b rest ih =>
    intro prev
    simp only [execGo]
    split
    · exact collectPairs_fst_le sz b
    · exact ih _

theorem exec_fst_le (sz : Nat) (st : ExecState) : (exec sz st).1 ≤ sz := by
  rcases st with ⟨prev, inputs⟩
  cases prev with
  | none => exact execGo_fst_le sz inputs none
  | some p => exact collectPairs_fst_le sz p

theorem execGo_inv (sz : Nat) (inputs : List PendingPairs) :
    ∀ prev, (∀ p, prev = some p → p ≠ []) → ExecInv (execGo sz prev inputs).2 := by
  induction inputs with
  | nil =>
    intro prev hp
    cases prev with
    | none => trivial
    | some p => exact hp p rfl
  | cons b rest ih =>
    intro prev hp
    rcases hcp : collectPairs sz b with ⟨res, rem⟩
    have hp1 : ∀ p, (match rem with | some r => some r | none => prev) = some p →
        p ≠ [] := by
      intro p hmatch
      cases rem with
      | none => exact hp p hmatch
      | some r =>
        injection hmatch with h
        subst h
        exact collectPairs_snd_ne sz b _ (by rw [hcp])
    simp only [execGo, hcp]
    split
    · cases hm : (match rem with | some r => some r | none => prev) with
      | none => trivial
      | some p => exact hp1 p hm
    · exact ih _ hp1

theorem exec_inv (sz : Nat) (st : ExecState) (h : ExecInv st) :
    ExecInv (exec sz st).2 := by
  rcases st with ⟨prev, inputs⟩
  cases prev with
  | none =>
    refine execGo_inv sz inputs none ?_
    intro p hp
    cases hp
  | some p =>
    show ExecInv ⟨(collectPairs sz p).2, inputs⟩
    cases hr : (collectPairs sz p).2 with
    | none => trivial
    | some r => exact collectPairs_snd_ne sz p r hr

theorem execGo_zero (sz : Nat) (inputs : List PendingPairs) (hsz : 0 < sz)
    (h : (execGo sz none inputs).1 = 0) :
    (execGo sz none inputs).2 = { prevPending := none, inputs := [] } := by
  induction inputs with
  | nil => rfl
  | cons b rest ih =>
    rcases hcp : collectPairs sz b with ⟨res, rem⟩
    have h1 : b.take sz = res := by
      have := congrArg Prod.fst hcp
      simpa [collectPairs] using this
    have h2 : (if b.length ≤ sz then none else some (b.drop sz)) = rem := by
      have := congrArg Prod.snd hcp
      simpa [collectPairs] using this
    simp only [execGo, hcp] at h ⊢
    by_cases hgt : res.length > 0
    · rw [if_pos hgt] at h
      simp only at h
      omega
    · rw [if_neg hgt] at h ⊢
      have hb : b = [] := by
        have h0 : res.length = 0 := by omega
        rw [← h1, List.length_take] at h0
        rcases b with _ | ⟨x, xs⟩
        · rfl
        · exfalso
          simp at h0
          omega
      have hrem : rem = none := by
        rw [← h2, hb]
        simp
      rw [hrem] at h ⊢
      exact ih h

theorem exec_zero (sz : Nat) (st : ExecState) (hsz : 0 < sz) (hinv : ExecInv st)
    (h : (exec sz st).1 = 0) :
    (exec sz st).2 = { prevPending := none, inputs := [] } := by
  rcases st with ⟨prev, inputs⟩
  cases prev with
  | none => exact execGo_zero sz inputs hsz h
  | some p =>
    exfalso
    have hp : p ≠ [] := hinv
    have hlen : (exec sz ⟨some p, inputs⟩).1 = (p.take sz).length := rfl
    rw [hlen, List.length_take] at h
    rcases p with _ | ⟨x, xs⟩
    · exact hp rfl
    · simp at h
      omega

theorem emitLoop_le (matched : List Bool) (sz : Nat) :
    ∀ rowIdx acc, acc.length ≤ sz →
      (emitUnmatchedLoop matched sz rowIdx acc).1.length ≤ sz := by
  intro rowIdx acc
  induction rowIdx, acc using emitUnmatchedLoop.induct matched sz with
  | case1 rowIdx acc hguard acc1 ih =>
    intro _
    rw [emitUnmatchedLoop, dif_pos hguard]
    refine ih ?_
    have h1 := hguard.1
    unfold acc1
    split <;> simp <;> omega
  | case2 rowIdx acc hguard =>
    intro hacc
    rw [emitUnmatchedLoop, dif_neg hguard]
    exact hacc

theorem emitLoop_zero (matched : List Bool) (sz : Nat) (hsz : 0 < sz) :
    ∀ rowIdx acc, (emitUnmatchedLoop matched sz rowIdx acc).1 = [] →
      matched.length ≤ (emitUnmatchedLoop matched sz rowIdx acc).2 := by
  intro rowIdx acc
  induction rowIdx, acc using emitUnmatchedLoop.induct matched sz with
  | case1 rowIdx acc hguard acc1 ih =>
    intro hnil
    rw [emitUnmatchedLoop, dif_pos hguard] at hnil ⊢
    exact ih hnil
  | case2 rowIdx acc hguard =>
    intro hnil
    rw [emitUnmatchedLoop, dif_neg hguard] at hnil ⊢
    simp only at hnil ⊢
    subst hnil
    push_neg at hguard
    simp only [List.length_nil] at hguard
    exact hguard hsz

theorem emitLoop_idle (matched : List Bool) (sz : Nat) (rowIdx : Nat)
    (acc : List Nat) (h : matched.length ≤ rowIdx) :
    emitUnmatchedLoop matched sz rowIdx acc = (acc, rowIdx) := by
  rw [emitUnmatchedLoop, dif_neg (by omega)]

theorem next_building (op : HJOpState) (h : op.runningState = .hjBuilding) :
    Next op = Next (buildTransition op) := by
  have hbt : (buildTransition op).runningState = .hjProbing := by
    simp [buildTransition, build]
  simp only [Next, h, hbt]

theorem exec_none_nil (sz : Nat) :
    exec sz { prevPending := none, inputs := [] } =
      (0, { prevPending := none, inputs := [] }) := rfl

theorem nextProbingFacts (op : HJOpState) (hsz : 0 < op.outputBatchSize)
    (hinv : ExecInv op.execSt) (hp : op.runningState = .hjProbing) :
    (Next op).2 ≤ op.outputBatchSize ∧
    ExecInv (Next op).1.execSt ∧
    ((Next op).2 = 0 → (Next op).1.execSt = { prevPending := none, inputs := [] }) ∧
    ((Next op).2 = 0 → (Next (Next op).1).2 = 0) := by
  rcases hx : exec op.outputBatchSize op.execSt with ⟨len, e1⟩
  have hle : len ≤ op.outputBatchSize := by
    have := exec_fst_le op.outputBatchSize op.execSt
    rw [hx] at this
    exact this
  have hinv1 : ExecInv e1 := by
    have := exec_inv op.outputBatchSize op.execSt hinv
    rw [hx] at this
    exact this
  by_cases hl : len = 0
  · subst hl
    have he1 : e1 = { prevPending := none, inputs := [] } := by
      have := exec_zero op.outputBatchSize op.execSt hsz hinv (by rw [hx])
      rw [hx] at this
      exact this
    subst he1
    cases hro : op.rightOuter
    · have hN : Next op =
          ({ op with execSt := { prevPending := none, inputs := [] } }, 0) := by
        simp [Next, hp, hx, hro]
      rw [hN]
      refine ⟨by omega, hinv1, fun _ => rfl, fun _ => ?_⟩
      simp [Next, hp, hro, exec_none_nil]
    · rcases hEm : emitUnmatchedLoop op.buildRowMatched op.outputBatchSize op.emitRowIdx []
        with ⟨emitted, r1⟩
      have hN : Next op =
          ({ op with
              execSt := { prevPending := none, inputs := [] },
              runningState := .hjEmittingUnmatched,
              emitRowIdx := r1 },
            emitted.length) := by
        simp [Next, hp, hx, hro, doEmit, hEm]
      rw [hN]
      refine ⟨?_, hinv1, fun _ => rfl, fun hz => ?_⟩
      · have := emitLoop_le op.buildRowMatched op.outputBatchSize op.emitRowIdx []
          (by simp)
        rw [hEm] at this
        exact this
      · simp only at hz
        have hnil : emitted = [] := List.length_eq_zero.mp hz
        have hr1 : op.buildRowMatched.length ≤ r1 := by
          have := emitLoop_zero op.buildRowMatched op.outputBatchSize hsz op.emitRowIdx []
            (by rw [hEm, hnil])
          rw [hEm] at this
          exact this
        have hidle := emitLoop_idle op.buildRowMatched op.outputBatchSize r1 [] hr1
        simp [Next, doEmit, hidle]
  · have hN : Next op = ({ op with execSt := e1 }, len) := by
      cases hro : op.rightOuter <;> simp [Next, hp, hx, hro, hl]
    rw [hN]
    exact ⟨hle, hinv1, fun hz => absurd hz hl, fun hz => absurd hz hl⟩

theorem nextEmittingFacts (op : HJOpState) (hsz : 0 < op.outputBatchSize)
    (hp : op.runningState = .hjEmittingUnmatched) :
    (Next op).2 ≤ op.outputBatchSize ∧
    (Next op).1.execSt = op.execSt ∧
    ((Next op).2 = 0 → (Next (Next op).1).2 = 0) := by
  rcases hEm : emitUnmatchedLoop op.buildRowMatched op.outputBatchSize op.emitRowIdx []
    with ⟨emitted, r1⟩
  have hN : Next op = ({ op with emitRowIdx := r1 }, emitted.length) := by
    simp [Next, hp, doEmit, hEm]
  rw [hN]
  refine ⟨?_, rfl, fun hz => ?_⟩
  · have := emitLoop_le op.buildRowMatched op.outputBatchSize op.emitRowIdx [] (by simp)
    rw [hEm] at this
    exact this
  · simp only at hz
    have hnil : emitted = [] := List.length_eq_zero.mp hz
    have hr1 : op.buildRowMatched.length ≤ r1 := by
      have := emitLoop_zero op.buildRowMatched op.outputBatchSize hsz op.emitRowIdx []
        (by rw [hEm, hnil])
      rw [hEm] at this
      exact this
    have hidle := emitLoop_idle op.buildRowMatched op.outputBatchSize r1 [] hr1
    simp [Next, hp, doEmit, hidle]

/-- C6: every batch Next returns has length at most outputBatchSize; the
probe-state invariant is preserved; in the probing state a zero-length batch
occurs only when the probe source is exhausted and no split batch is pending;
and a zero-length batch is absorbing: once Next returns an empty batch, the
following call returns an empty batch as well, so length 0 only occurs at
end-of-stream, never between non-empty batches. -/
theorem next_batch_length_contract (op : HJOpState) (hsz : 0 < op.outputBatchSize)
    (hinv : ExecInv op.execSt) :
    (Next op).2 ≤ op.outputBatchSize ∧
    ExecInv (Next op).1.execSt ∧
    (op.runningState = .hjProbing → (Next op).2 = 0 →
      (Next op).1.execSt = { prevPending := none, inputs := [] }) ∧
    ((Next op).2 = 0 → (Next (Next op).1).2 = 0) := by
  cases hrs : op.runningState with
  | hjProbing =>
    obtain ⟨h1, h2, h3, h4⟩ := nextProbingFacts op hsz hinv hrs
    exact ⟨h1, h2, fun _ => h3, h4⟩
  | hjEmittingUnmatched =>
    obtain ⟨h1, h2, h4⟩ := nextEmittingFacts op hsz hrs
    refine ⟨h1, ?_, fun hcontra => absurd hcontra (by decide), h4⟩
    rw [h2]
    exact hinv
  | hjBuilding =>
    have hB := next_building op hrs
    have hbt : (buildTransition op).runningState = .hjProbing := by
      simp [buildTransition, build]
    have hsz1 : 0 < (buildTransition op).outputBatchSize := hsz
    have hinv1 : ExecInv (buildTransition op).execSt := hinv
    obtain ⟨h1, h2, h3, h4⟩ := nextProbingFacts (buildTransition op) hsz1 hinv1 hbt
    rw [hB]
    exact ⟨h1, h2, fun hcontra => absurd hcontra (by decide), h4⟩

/-- Witness for C6: a probing operator with batch size 2 over one probe batch
with a single match returns a batch of length at most 2. -/
theorem next_batch_length_contract_witness :
    (Next { runningState := .hjProbing, rightDistinct := true, rightOuter := false,
            outputBatchSize := 2, valsLength := 0,
            execSt := { prevPending := none, inputs := [[(0, 1)]] },
            buildRowMatched := [], emitRowIdx := 0 }).2 ≤ 2 :=
  (next_batch_length_contract
    { runningState := .hjProbing, rightDistinct := true, rightOuter := false,
      outputBatchSize := 2, valsLength := 0,
      execSt := { prevPending := none, inputs := [[(0, 1)]] },
      buildRowMatched := [], emitRowIdx := 0 }
    (by decide) (by decide)).1

theorem assignIDs_snd (ls : List Latch) :
    ∀ id0, (assignIDs id0 ls).2 = id0 + ls.length := by
  induction ls with
  | nil =>
    intro id0
    simp [assignIDs]
  | cons la rest ih =>
    intro id0
    simp only [assignIDs, ih]
    simp
    omega

theorem assignIDs_map_id (ls : List Latch) :
    ∀ id0, (assignIDs id0 ls).1.map Latch.id = List.range' (id0 + 1) ls.length := by
  induction ls with
  | nil =>
    intro id0
    simp [assignIDs]
  | cons la rest ih =>
    intro id0
    simp only [assignIDs, List.map_cons, ih, List.length_cons, List.range'_succ]

theorem assignIDs_length (ls : List Latch) :
    ∀ id0, (assignIDs id0 ls).1.length = ls.length := by
  intro id0
  have := assignIDs_map_id ls id0
  have h2 := congrArg List.length this
  simpa using h2

theorem assignIDs_id_bounds (ls : List Latch) (id0 : Nat) (la : Latch)
    (h : la ∈ (assignIDs id0 ls).1) : id0 < la.id ∧ la.id ≤ id0 + ls.length := by
  have hmap : la.id ∈ (assignIDs id0 ls).1.map Latch.id := List.mem_map_of_mem _ h
  rw [assignIDs_map_id] at hmap
  rw [List.mem_range'_1] at hmap
  omega

theorem assignIDs_id_nodup (ls : List Latch) (id0 : Nat) :
    ((assignIDs id0 ls).1.map Latch.id).Nodup := by
  rw [assignIDs_map_id]
  exact List.nodup_range' _ _

theorem filter_ne_middle (base rest : List Latch) (la : Latch)
    (hbase : ∀ x ∈ base, x.id ≠ la.id) (hrest : ∀ y ∈ rest, y.id ≠ la.id) :
    (base ++ la :: rest).filter (fun x => x.id != la.id) = base ++ rest := by
  rw [List.filter_append]
  congr 1
  · rw [List.filter_eq_self]
    intro x hx
    simpa [bne_iff_ne] using hbase x hx
  · rw [List.filter_cons_of_neg (by simp)]
    rw [List.filter_eq_self]
    intro y hy
    simpa [bne_iff_ne] using hrest y hy

theorem inReadSet_of_mem (sm : ScopedManager) (la : Latch) (h : la ∈ sm.readSet) :
    sm.inReadSet la = true := by
  rw [ScopedManager.inReadSet, List.any_eq_true]
  exact ⟨la, h, by simp⟩

theorem inReadSet_of_fresh (sm : ScopedManager) (la : Latch)
    (h : ∀ x ∈ sm.readSet, x.id ≠ la.id) : sm.inReadSet la = false := by
  rw [ScopedManager.inReadSet]
  rw [List.any_eq_false]
  intro x hx
  simpa using h x hx

theorem removeSlot_readSet (tRO tRW : List Latch) :
    ∀ (ls base : List Latch),
      (∀ x ∈ base, ∀ y ∈ ls, x.id ≠ y.id) →
      (ls.map Latch.id).Nodup →
      ScopedManager.removeSlot ⟨base ++ ls, tRO, tRW⟩ .SpanReadOnly ls =
        ⟨base, tRO, tRW⟩ := by
  intro ls
  induction ls with
  | nil =>
    intro base hb hn
    simp [ScopedManager.removeSlot]
  | cons la rest ih =>
    intro base hb hn
    simp only [List.map_cons, List.nodup_cons] at hn
    have hmem : la ∈ base ++ la :: rest := by simp
    have hstep : ScopedManager.removeOne ⟨base ++ la :: rest, tRO, tRW⟩ .SpanReadOnly la =
        ⟨base ++ rest, tRO, tRW⟩ := by
      rw [ScopedManager.removeOne]
      rw [if_pos]
      · simp only
        congr 1
        exact filter_ne_middle base rest la
          (fun x hx => hb x hx la (by simp))
          (fun y hy => by
            intro hid
            exact hn.1 (hid ▸ List.mem_map_of_mem Latch.id hy))
      · exact inReadSet_of_mem ⟨base ++ la :: rest, tRO, tRW⟩ la hmem
    show ScopedManager.removeSlot _ _ _ = _
    rw [ScopedManager.removeSlot] at *
    simp only [List.foldl_cons]
    rw [show (⟨base ++ la :: rest, tRO, tRW⟩ : ScopedManager).removeOne .SpanReadOnly la =
      ⟨base ++ rest, tRO, tRW⟩ from hstep]
    exact ih base (fun x hx y hy => hb x hx y (by simp [hy])) hn.2

theorem removeSlot_treeRW (rs tRO : List Latch) :
    ∀ (ls base : List Latch),
      (∀ x ∈ rs, ∀ y ∈ ls, x.id ≠ y.id) →
      (∀ x ∈ base, ∀ y ∈ ls, x.id ≠ y.id) →
      (ls.map Latch.id).Nodup →
      ScopedManager.removeSlot ⟨rs, tRO, base ++ ls⟩ .SpanReadWrite ls =
        ⟨rs, tRO, base⟩ := by
  intro ls
  induction ls with
  | nil =>
    intro base hrs hb hn
    simp [ScopedManager.removeSlot]
  | cons la rest ih =>
    intro base hrs hb hn
    simp only [List.map_cons, List.nodup_cons] at hn
    have hstep : ScopedManager.removeOne ⟨rs, tRO, base ++ la :: rest⟩ .SpanReadWrite la =
        ⟨rs, tRO, base ++ rest⟩ := by
      rw [ScopedManager.removeOne]
      rw [if_neg]
      · simp only
        congr 1
        exact filter_ne_middle base rest la
          (fun x hx => hb x hx la (by simp))
          (fun y hy => by
            intro hid
            exact hn.1 (hid ▸ List.mem_map_of_mem Latch.id hy))
      · rw [inReadSet_of_fresh ⟨rs, tRO, base ++ la :: rest⟩ la
          (fun x hx => hrs x hx la (by simp))]
        simp
    rw [ScopedManager.removeSlot]
    simp only [List.foldl_cons]
    rw [show (⟨rs, tRO, base ++ la :: rest⟩ : ScopedManager).removeOne .SpanReadWrite la =
      ⟨rs, tRO, base ++ rest⟩ from hstep]
    exact ih base (fun x hx y hy => hrs x hx y (by simp [hy]))
      (fun x hx y hy => hb x hx y (by simp [hy])) hn.2

theorem snapshotLocked_eq (m : Manager) (spans : SpanSet) :
    m.snapshotLocked spans =
      ({ idAlloc := m.idAlloc,
         globalSM := if spans.globalRW.isEmpty then m.globalSM
                     else m.globalSM.flushReadSet,
         localSM := if spans.localRW.isEmpty then m.localSM
                    else m.localSM.flushReadSet },
       { gRO := if spans.globalRW.isEmpty then []
                else m.globalSM.treeRO ++ m.globalSM.readSet,
         gRW := if spans.globalRW.isEmpty && spans.globalRO.isEmpty then []
                else m.globalSM.treeRW,
         lRO := if spans.localRW.isEmpty then []
                else m.localSM.treeRO ++ m.localSM.readSet,
         lRW := if spans.localRW.isEmpty && spans.localRO.isEmpty then []
                else m.localSM.treeRW }) := by
  unfold Manager.snapshotLocked snapshotScope ScopedManager.flushReadSet SpanSet.GetSpans
  cases hg : spans.globalRW.isEmpty <;> cases hr : spans.globalRO.isEmpty <;>
    cases hl : spans.localRW.isEmpty <;> cases hs : spans.localRO.isEmpty <;>
      simp [hg, hr, hl, hs]

/-- C3: the critical section of sequence does exactly this, for every
Acquire: in each scope where the caller declares write spans the readSet is
flushed into the readOnly tree and the readOnly tree is cloned into the
snapshot; in each scope where the caller declares read or write spans the
readWrite tree is cloned into the snapshot; each new latch receives a fresh
id (the contiguous range above the old idAlloc, in insertion order); read
latches are appended to the readSet of their scope and write latches
directly to the readWrite tree; and the snapshot is captured before the
caller latches are inserted: every snapshot entry has an id at most the old
idAlloc while every inserted latch has a strictly larger id. -/
theorem sequence_critical_section (m : Manager) (spans : SpanSet) (ts : Timestamp) (done : Nat)
    (hWF : m.WF) :
    ∃ lg snap m2, m.sequence spans ts done = some (lg, snap, m2) ∧
      (snap.gRO = if spans.globalRW.isEmpty then []
        else m.globalSM.treeRO ++ m.globalSM.readSet) ∧
      (snap.gRW = if spans.globalRW.isEmpty && spans.globalRO.isEmpty then []
        else m.globalSM.treeRW) ∧
      (snap.lRO = if spans.localRW.isEmpty then []
        else m.localSM.treeRO ++ m.localSM.readSet) ∧
      (snap.lRW = if spans.localRW.isEmpty && spans.localRO.isEmpty then []
        else m.localSM.treeRW) ∧
      (m2.globalSM.treeRO = if spans.globalRW.isEmpty then m.globalSM.treeRO
        else m.globalSM.treeRO ++ m.globalSM.readSet) ∧
      (m2.localSM.treeRO = if spans.localRW.isEmpty then m.localSM.treeRO
        else m.localSM.treeRO ++ m.localSM.readSet) ∧
      (m2.globalSM.readSet =
        (if spans.globalRW.isEmpty then m.globalSM.readSet else []) ++ lg.globalRO) ∧
      (m2.globalSM.treeRW = m.globalSM.treeRW ++ lg.globalRW) ∧
      (m2.localSM.readSet =
        (if spans.localRW.isEmpty then m.localSM.readSet else []) ++ lg.localRO) ∧
      (m2.localSM.treeRW = m.localSM.treeRW ++ lg.localRW) ∧
      (lg.allLatches.map Latch.id =
        List.range' (m.idAlloc + 1) lg.allLatches.length) ∧
      (m2.idAlloc = m.idAlloc + lg.allLatches.length) ∧
      (∀ la, (la ∈ snap.gRO ∨ la ∈ snap.gRW ∨ la ∈ snap.lRO ∨ la ∈ snap.lRW) →
        la.id ≤ m.idAlloc) ∧
      (∀ la ∈ lg.allLatches, m.idAlloc < la.id) := by
  have hs := snapshotLocked_eq m spans
  rcases hA : assignIDs m.idAlloc
      (spans.globalRO.map fun sp =>
        { id := 0, span := sp, ts := ifGlobal ts .SpanGlobal, done := done })
    with ⟨gRO, id1⟩
  rcases hB : assignIDs id1
      (spans.globalRW.map fun sp =>
        { id := 0, span := sp, ts := ifGlobal ts .SpanGlobal, done := done })
    with ⟨gRW, id2⟩
  rcases hC : assignIDs id2
      (spans.localRO.map fun sp =>
        { id := 0, span := sp, ts := ifGlobal ts .SpanLocal, done := done })
    with ⟨lRO, id3⟩
  rcases hD : assignIDs id3
      (spans.localRW.map fun sp =>
        { id := 0, span := sp, ts := ifGlobal ts .SpanLocal, done := done })
    with ⟨lRW, id4⟩
  have hidA := assignIDs_snd (spans.globalRO.map fun sp =>
    { id := 0, span := sp, ts := ifGlobal ts .SpanGlobal, done := done }) m.idAlloc
  rw [hA] at hidA
  simp only [List.length_map] at hidA
  have hidB := assignIDs_snd (spans.globalRW.map fun sp =>
    { id := 0, span := sp, ts := ifGlobal ts .SpanGlobal, done := done }) id1
  rw [hB] at hidB
  simp only [List.length_map] at hidB
  have hidC := assignIDs_snd (spans.localRO.map fun sp =>
    { id := 0, span := sp, ts := ifGlobal ts .SpanLocal, done := done }) id2
  rw [hC] at hidC
  simp only [List.length_map] at hidC
  have hidD := assignIDs_snd (spans.localRW.map fun sp =>
    { id := 0, span := sp, ts := ifGlobal ts .SpanLocal, done := done }) id3
  rw [hD] at hidD
  simp only [List.length_map] at hidD
  have hmapA := assignIDs_map_id (spans.globalRO.map fun sp =>
    { id := 0, span := sp, ts := ifGlobal ts .SpanGlobal, done := done }) m.idAlloc
  rw [hA] at hmapA
  simp only [List.length_map] at hmapA
  have hmapB := assignIDs_map_id (spans.globalRW.map fun sp =>
    { id := 0, span := sp, ts := ifGlobal ts .SpanGlobal, done := done }) id1
  rw [hB] at hmapB
  simp only [List.length_map] at hmapB
  have hmapC := assignIDs_map_id (spans.localRO.map fun sp =>
    { id := 0, span := sp, ts := ifGlobal ts .SpanLocal, done := done }) id2
  rw [hC] at hmapC
  simp only [List.length_map] at hmapC
  have hmapD := assignIDs_map_id (spans.localRW.map fun sp =>
    { id := 0, span := sp, ts := ifGlobal ts .SpanLocal, done := done }) id3
  rw [hD] at hmapD
  simp only [List.length_map] at hmapD
  have hlenA : gRO.length = spans.globalRO.length := by
    have := congrArg List.length hmapA
    simpa using this
  have hlenB : gRW.length = spans.globalRW.length := by
    have := congrArg List.length hmapB
    simpa using this
  have hlenC : lRO.length = spans.localRO.length := by
    have := congrArg List.length hmapC
    simpa using this
  have hlenD : lRW.length = spans.localRW.length := by
    have := congrArg List.length hmapD
    simpa using this
  simp only [Manager.sequence, newGuard_eq, hs, Manager.insertLocked]
  rw [hA, hB, hC, hD]
  refine ⟨_, _, _, rfl, rfl, rfl, rfl, rfl, ?_, ?_, ?_, ?_, ?_, ?_, ?_, ?_, ?_, ?_⟩
  · cases hc : spans.globalRW.isEmpty <;> simp [ScopedManager.flushReadSet, hc]
  · cases hc : spans.localRW.isEmpty <;> simp [ScopedManager.flushReadSet, hc]
  · cases hc : spans.globalRW.isEmpty <;> simp [ScopedManager.flushReadSet, hc]
  · cases hc : spans.globalRW.isEmpty <;> simp [ScopedManager.flushReadSet, hc]
  · cases hc : spans.localRW.isEmpty <;> simp [ScopedManager.flushReadSet, hc]
  · cases hc : spans.localRW.isEmpty <;> simp [ScopedManager.flushReadSet, hc]
  · -- ids are the contiguous fresh range
    show (gRO ++ gRW ++ lRO ++ lRW).map Latch.id =
      List.range' (m.idAlloc + 1) (gRO ++ gRW ++ lRO ++ lRW).length
    simp only [List.map_append, List.length_append]
    rw [hmapA, hmapB, hmapC, hmapD]
    rw [show id1 + 1 = m.idAlloc + 1 + spans.globalRO.length from by omega]
    rw [List.range'_append_1]
    rw [show id2 + 1 = m.idAlloc + 1 +
      (spans.globalRW.length + spans.globalRO.length) from by omega]
    rw [List.range'_append_1]
    rw [show id3 + 1 = m.idAlloc + 1 +
      (spans.localRO.length + (spans.globalRW.length + spans.globalRO.length)) from
      by omega]
    rw [List.range'_append_1]
    congr 1
    omega
  · show id4 = m.idAlloc + (gRO ++ gRW ++ lRO ++ lRW).length
    simp only [List.length_append]
    omega
  · -- the snapshot holds only latches of the pre-insert state
    intro la hla
    obtain ⟨⟨hg1, hg2, hg3⟩, ⟨hl1, hl2, hl3⟩⟩ := hWF
    rcases hla with h | h | h | h <;> revert h
    · cases hc : spans.globalRW.isEmpty
      · simp only [hc, Bool.false_eq_true, if_false, List.mem_append]
        rintro (h | h)
        · exact hg2 la h
        · exact hg1 la h
      · simp [hc]
    · cases hc : spans.globalRW.isEmpty && spans.globalRO.isEmpty
      · simp only [hc, Bool.false_eq_true, if_false]
        intro h
        exact hg3 la h
      · simp [hc]
    · cases hc : spans.localRW.isEmpty
      · simp only [hc, Bool.false_eq_true, if_false, List.mem_append]
        rintro (h | h)
        · exact hl2 la h
        · exact hl1 la h
      · simp [hc]
    · cases hc : spans.localRW.isEmpty && spans.localRO.isEmpty
      · simp only [hc, Bool.false_eq_true, if_false]
        intro h
        exact hl3 la h
      · simp [hc]
  · -- every inserted latch has a fresh id
    intro la hla
    show m.idAlloc < la.id
    rcases List.mem_append.mp hla with hla | hD4
    rcases List.mem_append.mp hla with hla | hC3
    rcases List.mem_append.mp hla with hA1 | hB2
    · exact (by
        have := assignIDs_id_bounds _ m.idAlloc la (by rw [hA]; exact hA1)
        omega)
    · have := assignIDs_id_bounds _ id1 la (by rw [hB]; exact hB2)
      omega
    · have := assignIDs_id_bounds _ id2 la (by rw [hC]; exact hC3)
      omega
    · have := assignIDs_id_bounds _ id3 la (by rw [hD]; exact hD4)
      omega

theorem removeLocked_insertLocked (m : Manager) (lg : Guard) (b : Bool)
    (hWF : m.WF) :
    Manager.removeLocked (m.insertLocked lg).1
      { (m.insertLocked lg).2 with doneSignaled := b } =
      { m with idAlloc := (m.insertLocked lg).1.idAlloc } := by
  obtain ⟨⟨hg1, hg2, hg3⟩, ⟨hl1, hl2, hl3⟩⟩ := hWF
  rcases hA : assignIDs m.idAlloc lg.globalRO with ⟨gRO, id1⟩
  rcases hB : assignIDs id1 lg.globalRW with ⟨gRW, id2⟩
  rcases hC : assignIDs id2 lg.localRO with ⟨lRO, id3⟩
  rcases hD : assignIDs id3 lg.localRW with ⟨lRW, id4⟩
  have hidA := assignIDs_snd lg.globalRO m.idAlloc
  rw [hA] at hidA
  have hidB := assignIDs_snd lg.globalRW id1
  rw [hB] at hidB
  have hidC := assignIDs_snd lg.localRO id2
  rw [hC] at hidC
  have hidD := assignIDs_snd lg.localRW id3
  rw [hD] at hidD
  simp only at hidA hidB hidC hidD
  have bndA : ∀ la ∈ gRO, m.idAlloc < la.id ∧ la.id ≤ id1 := by
    intro la hla
    have := assignIDs_id_bounds lg.globalRO m.idAlloc la (by rw [hA]; exact hla)
    omega
  have bndB : ∀ la ∈ gRW, id1 < la.id ∧ la.id ≤ id2 := by
    intro la hla
    have := assignIDs_id_bounds lg.globalRW id1 la (by rw [hB]; exact hla)
    omega
  have bndC : ∀ la ∈ lRO, id2 < la.id ∧ la.id ≤ id3 := by
    intro la hla
    have := assignIDs_id_bounds lg.localRO id2 la (by rw [hC]; exact hla)
    omega
  have bndD : ∀ la ∈ lRW, id3 < la.id ∧ la.id ≤ id4 := by
    intro la hla
    have := assignIDs_id_bounds lg.localRW id3 la (by rw [hD]; exact hla)
    omega
  have ndA : (gRO.map Latch.id).Nodup := by
    have := assignIDs_id_nodup lg.globalRO m.idAlloc
    rw [hA] at this
    exact this
  have ndB : (gRW.map Latch.id).Nodup := by
    have := assignIDs_id_nodup lg.globalRW id1
    rw [hB] at this
    exact this
  have ndC : (lRO.map Latch.id).Nodup := by
    have := assignIDs_id_nodup lg.localRO id2
    rw [hC] at this
    exact this
  have ndD : (lRW.map Latch.id).Nodup := by
    have := assignIDs_id_nodup lg.localRW id3
    rw [hD] at this
    exact this
  simp only [Manager.insertLocked]
  rw [hA, hB, hC, hD]
  simp only [Manager.removeLocked]
  have hgStep1 : ScopedManager.removeSlot
      ⟨m.globalSM.readSet ++ gRO, m.globalSM.treeRO, m.globalSM.treeRW ++ gRW⟩
      .SpanReadOnly gRO =
      ⟨m.globalSM.readSet, m.globalSM.treeRO, m.globalSM.treeRW ++ gRW⟩ := by
    apply removeSlot_readSet
    · intro x hx y hy
      have h1 := hg1 x hx
      have h2 := (bndA y hy).1
      omega
    · exact ndA
  have hgStep2 : ScopedManager.removeSlot
      ⟨m.globalSM.readSet, m.globalSM.treeRO, m.globalSM.treeRW ++ gRW⟩
      .SpanReadWrite gRW =
      ⟨m.globalSM.readSet, m.globalSM.treeRO, m.globalSM.treeRW⟩ := by
    apply removeSlot_treeRW
    · intro x hx y hy
      have h1 := hg1 x hx
      have h2 := (bndB y hy).1
      omega
    · intro x hx y hy
      have h1 := hg3 x hx
      have h2 := (bndB y hy).1
      omega
    · exact ndB
  have hlStep1 : ScopedManager.removeSlot
      ⟨m.localSM.readSet ++ lRO, m.localSM.treeRO, m.localSM.treeRW ++ lRW⟩
      .SpanReadOnly lRO =
      ⟨m.localSM.readSet, m.localSM.treeRO, m.localSM.treeRW ++ lRW⟩ := by
    apply removeSlot_readSet
    · intro x hx y hy
      have h1 := hl1 x hx
      have h2 := (bndC y hy).1
      omega
    · exact ndC
  have hlStep2 : ScopedManager.removeSlot
      ⟨m.localSM.readSet, m.localSM.treeRO, m.localSM.treeRW ++ lRW⟩
      .SpanReadWrite lRW =
      ⟨m.localSM.readSet, m.localSM.treeRO, m.localSM.treeRW⟩ := by
    apply removeSlot_treeRW
    · intro x hx y hy
      have h1 := hl1 x hx
      have h2 := (bndD y hy).1
      omega
    · intro x hx y hy
      have h1 := hl3 x hx
      have h2 := (bndD y hy).1
      omega
    · exact ndD
  rw [hgStep1, hgStep2, hlStep1, hlStep2]

theorem flushReadSet_WF (sm : ScopedManager) (n : Nat) (h : sm.idsLe n) :
    sm.flushReadSet.idsLe n := by
  obtain ⟨h1, h2, h3⟩ := h
  refine ⟨by simp [ScopedManager.flushReadSet], ?_, ?_⟩
  · intro la hla
    rcases List.mem_append.mp hla with h | h
    · exact h2 la h
    · exact h1 la h
  · exact h3

theorem snapshotLocked_WF (m : Manager) (spans : SpanSet) (hWF : m.WF) :
    (m.snapshotLocked spans).1.WF := by
  rw [snapshotLocked_eq]
  obtain ⟨hg, hl⟩ := hWF
  constructor
  · show ScopedManager.idsLe (if spans.globalRW.isEmpty then m.globalSM
      else m.globalSM.flushReadSet) m.idAlloc
    split
    · exact hg
    · exact flushReadSet_WF m.globalSM m.idAlloc hg
  · show ScopedManager.idsLe (if spans.localRW.isEmpty then m.localSM
      else m.localSM.flushReadSet) m.idAlloc
    split
    · exact hl
    · exact flushReadSet_WF m.localSM m.idAlloc hl

/-- C4: if the context is canceled while Acquire waits on overlapping
latches, Acquire releases its guard, firing the shared done signal of the
guard and removing every latch it had inserted from the readSet or the
readWrite tree (the manager returns to its pre-insert, flushed state, only
the id allocator having advanced), and returns no Guard together with the
cancellation error. -/
theorem acquire_cancellation_cleanup (m : Manager) (spans : SpanSet) (ts : Timestamp) (done : Nat)
    (fired : List Nat) (budget : Option Nat) (lg : Guard) (snap : Snapshot)
    (m1 : Manager) (e : String) (hWF : m.WF)
    (hseq : m.sequence spans ts done = some (lg, snap, m1))
    (hwait : Manager.wait snap lg ts fired budget = .error e) :
    m.Acquire spans ts done fired budget =
      some ({ (m.snapshotLocked spans).1 with idAlloc := m1.idAlloc },
        none, some e) ∧
    (m1.Release lg).2.doneSignaled = true ∧
    (m1.Release lg).1 =
      { (m.snapshotLocked spans).1 with idAlloc := m1.idAlloc } := by
  have hng := newGuard_eq spans ts done
  rcases hsnap2 : m.snapshotLocked spans with ⟨mF, snapF⟩
  have hWFF : mF.WF := by
    have := snapshotLocked_WF m spans hWF
    rw [hsnap2] at this
    exact this
  simp only [Manager.sequence, hng, hsnap2] at hseq
  rcases hins : mF.insertLocked
      { done := done, doneSignaled := false,
        globalRO := spans.globalRO.map fun sp =>
          { id := 0, span := sp, ts := ifGlobal ts .SpanGlobal, done := done },
        globalRW := spans.globalRW.map fun sp =>
          { id := 0, span := sp, ts := ifGlobal ts .SpanGlobal, done := done },
        localRO := spans.localRO.map fun sp =>
          { id := 0, span := sp, ts := ifGlobal ts .SpanLocal, done := done },
        localRW := spans.localRW.map fun sp =>
          { id := 0, span := sp, ts := ifGlobal ts .SpanLocal, done := done } }
    with ⟨m2F, lgF⟩
  rw [hins] at hseq
  simp only [Option.some.injEq, Prod.mk.injEq] at hseq
  obtain ⟨hlg, hsnap, hm1⟩ := hseq
  subst hlg
  subst hsnap
  subst hm1
  have hround := removeLocked_insertLocked mF
    { done := done, doneSignaled := false,
      globalRO := spans.globalRO.map fun sp =>
        { id := 0, span := sp, ts := ifGlobal ts .SpanGlobal, done := done },
      globalRW := spans.globalRW.map fun sp =>
        { id := 0, span := sp, ts := ifGlobal ts .SpanGlobal, done := done },
      localRO := spans.localRO.map fun sp =>
        { id := 0, span := sp, ts := ifGlobal ts .SpanLocal, done := done },
      localRW := spans.localRW.map fun sp =>
        { id := 0, span := sp, ts := ifGlobal ts .SpanLocal, done := done } }
    true hWFF
  rw [hins] at hround
  have hrel : (m2F.Release lgF).1 = { mF with idAlloc := m2F.idAlloc } := by
    simp only [Manager.Release]
    exact hround
  refine ⟨?_, rfl, ?_⟩
  · simp only [Manager.Acquire, Manager.sequence, hng, hsnap2, hins, hwait]
    simp only [Manager.Release] at hrel ⊢
    rw [hrel]
  · exact hrel

/-- Witness for C3: a manager at idAlloc 5 holding one read latch in the
global readSet and one write latch in the global readWrite tree, acquiring
one global read span and one global write span. -/
theorem sequence_critical_section_witness :
    ∃ lg snap m2,
      (Manager.mk 5 ⟨[⟨1, ⟨0, 1⟩, ⟨2, 0⟩, 9⟩], [], [⟨2, ⟨5, 6⟩, ⟨3, 0⟩, 9⟩]⟩
          ⟨[], [], []⟩).sequence ⟨[⟨1, 2⟩], [⟨3, 4⟩], [], []⟩ ⟨7, 0⟩ 11 =
        some (lg, snap, m2) ∧
      m2.idAlloc = 5 + lg.allLatches.length ∧
      lg.allLatches.map Latch.id = List.range' (5 + 1) lg.allLatches.length := by
  obtain ⟨lg, snap, m2, hseq, _, _, _, _, _, _, _, _, _, _, hmap, hid, _, _⟩ :=
    sequence_critical_section
      (Manager.mk 5 ⟨[⟨1, ⟨0, 1⟩, ⟨2, 0⟩, 9⟩], [], [⟨2, ⟨5, 6⟩, ⟨3, 0⟩, 9⟩]⟩
        ⟨[], [], []⟩)
      ⟨[⟨1, 2⟩], [⟨3, 4⟩], [], []⟩ ⟨7, 0⟩ 11 (by decide)
  exact ⟨lg, snap, m2, hseq, hid, hmap⟩

/-- Witness for C4: acquiring a global write span over [2,5) while a live
write latch over [0,10) is in the tree, with the context firing before the
first select completes; Acquire returns no Guard, the cancellation error,
and the manager without the inserted latch. -/
theorem acquire_cancellation_cleanup_witness :
    (Manager.mk 1 ⟨[], [], [⟨1, ⟨0, 10⟩, ⟨0, 0⟩, 3⟩]⟩ ⟨[], [], []⟩).Acquire
        ⟨[], [⟨2, 5⟩], [], []⟩ ⟨0, 0⟩ 7 [] (some 0) =
      some (Manager.mk 2 ⟨[], [], [⟨1, ⟨0, 10⟩, ⟨0, 0⟩, 3⟩]⟩ ⟨[], [], []⟩,
        none, some "context canceled") :=
  (acquire_cancellation_cleanup
    (Manager.mk 1 ⟨[], [], [⟨1, ⟨0, 10⟩, ⟨0, 0⟩, 3⟩]⟩ ⟨[], [], []⟩)
    ⟨[], [⟨2, 5⟩], [], []⟩ ⟨0, 0⟩ 7 [] (some 0)
    ⟨7, false, [], [⟨2, ⟨2, 5⟩, ⟨0, 0⟩, 7⟩], [], []⟩
    ⟨[], [⟨1, ⟨0, 10⟩, ⟨0, 0⟩, 3⟩], [], []⟩
    (Manager.mk 2
      ⟨[], [], [⟨1, ⟨0, 10⟩, ⟨0, 0⟩, 3⟩, ⟨2, ⟨2, 5⟩, ⟨0, 0⟩, 7⟩]⟩
      ⟨[], [], []⟩)
    "context canceled" (by decide) (by decide) rfl).1
